import Mathlib

/-!
Verification of the graph-selection engine and YAML error-formatting helper
of this repository.

The selection engine (criteria parser, matcher, node selector) is exercised by
`test/unit/test_graph_selection.py` but its implementation module is not part
of the provided sources, so its definitions below are modelled from the spec
(each such definition's doc comment says so).  The YAML helper
(`core/dbt/clients/yaml_helper.py`) is embedded directly from its source.

Strings are embedded as `List Char`; namespace paths as `List (List Char)`;
node sets as `Finset (List Char)`.
-/

deriving instance DecidableEq for Except

namespace DbtSel

/-- Splitting a character list on a separator character, mirroring Python's
`str.split(sep)`: the result is always nonempty, and empty components are
kept (`''.split('.') == ['']`). -/
def splitOnChar (sep : Char) : List Char → List (List Char)
  | [] => [[]]
  | c :: cs =>
    match splitOnChar sep cs with
    | [] => [[]]
    | s :: rest => if c = sep then [] :: s :: rest else (c :: s) :: rest

/-- Split on `.`, as the matcher does with an fqn selector value. -/
def splitDot (l : List Char) : List (List Char) := splitOnChar '.' l

/-- Selector kinds of the selection DSL. -/
inductive SelectorType where
  | fqn
  | tag
  | source
deriving DecidableEq

/-- Modelled from the spec: a parsed selection criterion — directional
modifiers plus selector kind and value (§3 of the spec). -/
structure SelectionCriteria where
  select_parents : Bool
  select_children : Bool
  select_childrens_parents : Bool
  selector_type : SelectorType
  selector_value : List Char
deriving DecidableEq

/-- Modelled from the spec: classification of a spec body (after the
directional modifiers are stripped): `tag:<value>` gives kind `tag`,
`source:<value>` gives kind `source`, anything else is an `fqn` whose value is
the literal body (§4.1); the implementation module is not under the provided
sources. -/
def parseBody (b : List Char) : SelectorType × List Char :=
  if b.take 4 = ('t' :: 'a' :: 'g' :: ':' :: []) then
    (SelectorType.tag, b.drop 4)
  else if b.take 7 = ('s' :: 'o' :: 'u' :: 'r' :: 'c' :: 'e' :: ':' :: []) then
    (SelectorType.source, b.drop 7)
  else
    (SelectorType.fqn, b)

/-- Modelled from the spec: `parse(spec)` of §4.1 — an optional leading `@`
xor leading `+`, then a body, then an optional trailing `+`; a leading `@`
together with a trailing `+` is rejected with the invalid-selector error,
which carries the offending spec string (§6); the implementation module is
not under the provided sources. -/
def parseSpec (spec : List Char) : Except (List Char) SelectionCriteria :=
  let p1 : Bool × List Char :=
    if spec.head? = some '@' then (true, spec.tail) else (false, spec)
  let scp := p1.1
  let s1 := p1.2
  let p2 : Bool × List Char :=
    if scp = false ∧ s1.head? = some '+' then (true, s1.tail) else (false, s1)
  let sp := p2.1
  let s2 := p2.2
  let p3 : Bool × List Char :=
    if s2.getLast? = some '+' then (true, s2.dropLast) else (false, s2)
  let sc := p3.1
  let body := p3.2
  if scp = true ∧ sc = true then
    Except.error spec
  else
    let tv := parseBody body
    Except.ok ⟨sp, sc, scp, tv.1, tv.2⟩

example : parseSpec ('a' :: []) =
    Except.ok ⟨false, false, false, SelectorType.fqn, ['a']⟩ := by decide

example : parseSpec ('@' :: 'a' :: '+' :: []) =
    Except.error ('@' :: 'a' :: '+' :: []) := by decide

example : parseSpec ('+' :: 't' :: 'a' :: 'g' :: ':' :: 'a' :: '+' :: []) =
    Except.ok ⟨true, true, false, SelectorType.tag, ['a']⟩ := by decide

/-- Modelled from the spec: star-truncation of an fqn pattern — if the
pattern's last element is `*`, drop it (§4.2); the implementation module is
not under the provided sources. -/
def starTruncate (pat : List (List Char)) : List (List Char) :=
  if pat.getLast? = some ('*' :: []) then pat.dropLast else pat

/-- Modelled from the spec: `is_selected_node` — the (possibly
star-truncated) pattern sequence matches a node when it is a prefix of the
node's full namespace path or of the path with its leading package segment
removed (§4.2); the implementation module is not under the provided
sources. -/
def is_selected_node (path : List (List Char)) (pat : List (List Char)) : Bool :=
  let p := starTruncate pat
  decide (p <+: path) || decide (p <+: path.tail)

/-- Modelled from the spec: fqn matching of a selector value against a node's
namespace path — split the value on `.`, then apply `is_selected_node`
(§4.2). -/
def fqnMatches (path : List (List Char)) (value : List Char) : Bool :=
  is_selected_node path (splitDot value)

example : fqnMatches (['X'] :: ['a'] :: []) ('a' :: []) = true := by decide

example : fqnMatches (['X'] :: ['a'] :: []) ('X' :: '.' :: 'a' :: []) = true := by decide

example : fqnMatches (['X'] :: ['a'] :: []) ('*' :: []) = true := by decide

example : fqnMatches (['X'] :: ['a'] :: []) ('X' :: '.' :: '*' :: []) = true := by decide

example : fqnMatches (['X'] :: ['a'] :: []) ('b' :: []) = false := by decide

example : fqnMatches (['X'] :: ['a'] :: []) ('X' :: '.' :: 'b' :: []) = false := by decide

example : fqnMatches (['X'] :: ['a'] :: []) ('X' :: '.' :: 'a' :: '.' :: 'b' :: []) = false := by decide

example : fqnMatches (['X'] :: ['a'] :: []) ('Y' :: '.' :: '*' :: []) = false := by decide

/-- A node identifier (an opaque unique key such as `m.X.a`). -/
abbrev NodeId := List Char

/-- Modelled from the spec: the dependency graph — node identifiers and
directed dependency edges, from producer to consumer (§2, §6); the
implementation module is not under the provided sources. -/
structure Graph where
  nodes : Finset NodeId
  edges : Finset (NodeId × NodeId)

/-- Direct successors (consumers) of a node set. -/
def succsOf (g : Graph) (s : Finset NodeId) : Finset NodeId :=
  (g.edges.filter (fun e => e.1 ∈ s)).image Prod.snd

/-- Direct predecessors (producers) of a node set. -/
def predsOf (g : Graph) (s : Finset NodeId) : Finset NodeId :=
  (g.edges.filter (fun e => e.2 ∈ s)).image Prod.fst

/-- One forward-reachability expansion step. -/
def stepForward (g : Graph) (s : Finset NodeId) : Finset NodeId :=
  s ∪ succsOf g s

/-- One backward-reachability expansion step. -/
def stepBackward (g : Graph) (s : Finset NodeId) : Finset NodeId :=
  s ∪ predsOf g s

/-- Modelled from the spec: `descendants(S)` — every node reachable from `S`
by a directed path (§4.3); computed by bounded expansion, enough steps to
cover any simple path in the graph. -/
def descendants (g : Graph) (s : Finset NodeId) : Finset NodeId :=
  (stepForward g)^[g.nodes.card] (succsOf g s)

/-- Modelled from the spec: `ancestors(S)` — every node with a directed path
to some node of `S` (§4.3). -/
def ancestors (g : Graph) (s : Finset NodeId) : Finset NodeId :=
  (stepBackward g)^[g.nodes.card] (predsOf g s)

/-- Resource kinds the catalog distinguishes (§6). -/
inductive ResourceKind where
  | model
  | source
deriving DecidableEq

/-- Modelled from the spec: per-node catalog metadata — namespace path, tag
set and resource kind (§3, §6). -/
structure NodeMeta where
  fqn : List (List Char)
  tags : List (List Char)
  kind : ResourceKind
deriving DecidableEq

/-- Modelled from the spec: the resource catalog, mapping node identifiers to
their metadata (§2). -/
structure Manifest where
  nodes : List (NodeId × NodeMeta)

/-- Modelled from the spec: the matcher — `tag` checks tag-set membership,
`source` restricts an fqn-style match to source-kind nodes, `fqn` is the dual
prefix match (§4.2). -/
def matchesCriterion (c : SelectionCriteria) (meta : NodeMeta) : Bool :=
  match c.selector_type with
  | SelectorType.fqn => fqnMatches meta.fqn c.selector_value
  | SelectorType.tag => meta.tags.contains c.selector_value
  | SelectorType.source =>
    (meta.kind == ResourceKind.source) && fqnMatches meta.fqn c.selector_value

/-- Modelled from the spec: `directMatches` — all catalog nodes whose
metadata satisfies a criterion's selector (§4.3 step 2). -/
def directMatches (m : Manifest) (c : SelectionCriteria) : Finset NodeId :=
  ((m.nodes.filter (fun p => matchesCriterion c p.2)).map Prod.fst).toFinset

/-- Modelled from the spec: the per-criterion result with directional closure
(§4.3 step 3). -/
def criterionResult (g : Graph) (m : Manifest) (c : SelectionCriteria) : Finset NodeId :=
  let direct := directMatches m c
  if c.select_childrens_parents then
    let D := direct ∪ descendants g direct
    D ∪ ancestors g D
  else
    (direct ∪ (if c.select_parents then ancestors g direct else ∅))
      ∪ (if c.select_children then descendants g direct else ∅)

/-- Parse every spec of a list, failing the whole call on the first malformed
spec (§4.3 step 1). -/
def parseAll : List (List Char) → Except (List Char) (List SelectionCriteria)
  | [] => Except.ok []
  | s :: rest =>
    match parseSpec s with
    | Except.error err => Except.error err
    | Except.ok c =>
      match parseAll rest with
      | Except.error err => Except.error err
      | Except.ok cs => Except.ok (c :: cs)

/-- Union of the per-criterion results across a criteria list (§4.3 step 4). -/
def unionResults (g : Graph) (m : Manifest) (cs : List SelectionCriteria) : Finset NodeId :=
  cs.foldr (fun c acc => criterionResult g m c ∪ acc) ∅

/-- Modelled from the spec: `select(graph, includeSpecs, excludeSpecs)` —
parse both lists, union per-criterion results on each side, and subtract the
excluded set (§4.3); the implementation module is not under the provided
sources. -/
def select_nodes (g : Graph) (m : Manifest) (incl excl : List (List Char)) :
    Except (List Char) (Finset NodeId) :=
  match parseAll incl with
  | Except.error err => Except.error err
  | Except.ok ics =>
    match parseAll excl with
    | Except.error err => Except.error err
    | Except.ok ecs => Except.ok (unionResults g m ics \ unionResults g m ecs)

/-- The namespace path derived from a node identifier: split on `.` and drop
the leading resource-type segment (as the unit tests derive `fqn` from node
ids). -/
def nodePath (n : NodeId) : List (List Char) := (splitDot n).tail

/-- Modelled from the spec: `get_package_names` — the distinct set of the
first path segment across all nodes (§6); the implementation module is not
under the provided sources. -/
def get_package_names (g : Graph) : Finset (List Char) :=
  g.nodes.image (fun n => (nodePath n).headD [])

/-! The concrete seven-node balanced binary tree of §8 of the spec, as built
by the unit tests: root `m.X.a`, children `m.Y.b` and `m.X.c`, then
`m.Y.d`, `m.X.e` under `m.Y.b` and `m.Y.f`, `m.X.g` under `m.X.c`. -/

def nXa : NodeId := "m.X.a".toList

def nYb : NodeId := "m.Y.b".toList

def nXc : NodeId := "m.X.c".toList

def nYd : NodeId := "m.Y.d".toList

def nXe : NodeId := "m.X.e".toList

def nYf : NodeId := "m.Y.f".toList

def nXg : NodeId := "m.X.g".toList

def testGraph : Graph :=
  { nodes := {nXa, nYb, nXc, nYd, nXe, nYf, nXg},
    edges := {(nXa, nYb), (nXa, nXc), (nYb, nYd), (nYb, nXe), (nXc, nYf), (nXc, nXg)} }

/-- Metadata of one test node: fqn derived from the identifier, a given tag
list, model kind. -/
def testMeta (n : NodeId) (tags : List (List Char)) : NodeMeta :=
  { fqn := nodePath n, tags := tags, kind := ResourceKind.model }

def testManifest : Manifest :=
  { nodes :=
      [ (nXa, testMeta nXa ["abc".toList]),
        (nYb, testMeta nYb ["abc".toList]),
        (nXc, testMeta nXc ["abc".toList]),
        (nYd, testMeta nYd []),
        (nXe, testMeta nXe ["efg".toList]),
        (nYf, testMeta nYf ["efg".toList]),
        (nXg, testMeta nXg ["efg".toList]) ] }

example : select_nodes testGraph testManifest ["@X.c".toList] [] =
    Except.ok {nXa, nXc, nYf, nXg} :=
  congrArg Except.ok (Finset.Subset.antisymm (by decide) (by decide))

example : select_nodes testGraph testManifest ["*".toList] ["tag:abc".toList] =
    Except.ok {nYd, nXe, nYf, nXg} :=
  congrArg Except.ok (Finset.Subset.antisymm (by decide) (by decide))

example : select_nodes testGraph testManifest ["tag:abc".toList, "a".toList] [] =
    Except.ok {nXa, nYb, nXc} :=
  congrArg Except.ok (Finset.Subset.antisymm (by decide) (by decide))

example : select_nodes testGraph testManifest ["tag:abc".toList, "d".toList] [] =
    Except.ok {nXa, nYb, nXc, nYd} :=
  congrArg Except.ok (Finset.Subset.antisymm (by decide) (by decide))

example : get_package_names testGraph = {"X".toList, "Y".toList} :=
  Finset.Subset.antisymm (by decide) (by decide)

end DbtSel

namespace DbtYaml

/-- A position mark attached to a YAML library error (`error.problem_mark`),
carrying the 0-based offending line. -/
structure Mark where
  line : Nat
deriving DecidableEq

/-- A YAML library error: an optional position mark and the error's string
rendering (what Python's `str(e)` interpolates as the raw error). -/
structure YamlError where
  problem_mark : Option Mark
  msg : List Char
deriving DecidableEq

/-- The error kind raised by `load_yaml_text`
(`dbt.exceptions.ValidationException`). -/
inductive DbtError where
  | validationException (msg : List Char)
deriving DecidableEq

/-- `line_no` of `core/dbt/clients/yaml_helper.py`: the line number rendered
and left-justified to width 3, then `| ` and the line itself. -/
def line_no (i : Nat) (line : List Char) : List Char :=
  ((Nat.repr i).toList ++ List.replicate (3 - (Nat.repr i).toList.length) ' ')
    ++ ('|' :: ' ' :: line)

/-- Split raw contents into lines, as Python's `string.split('\n')`. -/
def splitNl (s : List Char) : List (List Char) := DbtSel.splitOnChar '\n' s

/-- The numbered excerpt lines built inside `prefix_with_line_numbers`:
`zip(range(no_start, no_end), line_list[no_start:no_end])` mapped through
`line_no(i + 1, line)`. -/
def numbered_lines (s : List Char) (no_start no_end : Nat) : List (List Char) :=
  ((List.range' no_start (no_end - no_start)).zip
      (((splitNl s).drop no_start).take (no_end - no_start))).map
    (fun p => line_no (p.1 + 1) p.2)

/-- `prefix_with_line_numbers` of `core/dbt/clients/yaml_helper.py`: the
numbered excerpt lines joined with newlines. -/
def prefix_with_line_numbers (s : List Char) (no_start no_end : Nat) : List Char :=
  List.intercalate ('\n' :: []) (numbered_lines s no_start no_end)

/-- The `YAML_ERROR_MESSAGE` template of `core/dbt/clients/yaml_helper.py`
(after `.strip()`), with the three holes filled in. -/
def YAML_ERROR_MESSAGE (line_number nice_error raw_error : List Char) : List Char :=
  "Syntax error near line ".toList ++ line_number ++
    ('\n' :: []) ++ "------------------------------".toList ++ ('\n' :: []) ++
    nice_error ++ ('\n' :: '\n' :: []) ++ "Raw Error:".toList ++ ('\n' :: []) ++
    "------------------------------".toList ++ ('\n' :: []) ++ raw_error

/-- `contextualized_yaml_error` of `core/dbt/clients/yaml_helper.py`: window
from `max(mark.line - 3, 0)` to `mark.line + 4`, line number reported as
`mark.line + 1`.  (Only called when the mark is present; the `getD` default
is never reached in `load_yaml_text`.) -/
def contextualized_yaml_error (raw_contents : List Char) (e : YamlError) : List Char :=
  let mark := e.problem_mark.getD ⟨0⟩
  let min_line := max (mark.line - 3) 0
  let max_line := mark.line + 4
  let nice_error := prefix_with_line_numbers raw_contents min_line max_line
  YAML_ERROR_MESSAGE (Nat.repr (mark.line + 1)).toList nice_error e.msg

/-- `load_yaml_text` of `core/dbt/clients/yaml_helper.py`, parameterized over
the YAML library's `safe_load`: on success the parsed value, on failure a
`ValidationException` whose message is the contextualized error when the
library error carries a position mark, or the raw error text otherwise. -/
def load_yaml_text {α : Type} (safe_load : List Char → Except YamlError α)
    (contents : List Char) : Except DbtError α :=
  match safe_load contents with
  | Except.ok v => Except.ok v
  | Except.error e =>
    match e.problem_mark with
    | some _ =>
      Except.error (DbtError.validationException (contextualized_yaml_error contents e))
    | none => Except.error (DbtError.validationException e.msg)

/-- Mapping over the zip of an index range with a list is indexed mapping,
provided the range is at least as long as the list. -/
theorem zip_range'_map (f : Nat → List Char → List Char) :
    ∀ (xs : List (List Char)) (a n : Nat), xs.length ≤ n →
      ((List.range' a n).zip xs).map (fun p => f p.1 p.2) =
        xs.mapIdx (fun j x => f (a + j) x)
  | [], _, _, _ => by simp
  | _ :: _, _, 0, h => by simp at h
  | x :: xs, a, n + 1, h => by
    have ih := zip_range'_map f xs (a + 1) n (by simpa using h)
    rw [List.range'_succ, List.zip_cons_cons, List.map_cons, List.mapIdx_cons, ih]
    refine congrArg₂ _ (by simp) ?_
    have hf : (fun j x => f (a + 1 + j) x) = fun (j : Nat) x => f (a + (j + 1)) x := by
      funext j y
      congr 1
      omega
    rw [hf]

end DbtYaml

namespace DbtSel

/-- Claim C1: every selection-spec string with both a leading `@` and a
trailing `+` — exactly the strings of the form `@` ++ body ++ `+` — fails to
parse with the invalid-selector error carrying the offending spec; no spec
combining the two modifiers ever yields a criterion. -/
theorem claim_C1_at_with_trailing_plus_fails (b : List Char) :
    parseSpec ('@' :: (b ++ ['+'])) = Except.error ('@' :: (b ++ ['+'])) := by
  simp [parseSpec, List.getLast?_concat]

/-- Claim C2: fqn matching splits the selector value on `.`, drops a final
`*`, and succeeds iff the remaining pattern is a prefix of the node's full
namespace path or of the path with the leading package segment removed; a
pattern longer than the candidate path never matches; and the eight concrete
vectors hold. -/
theorem claim_C2_fqn_matching :
    (∀ (path : List (List Char)) (value : List Char),
        fqnMatches path value = true ↔
          (starTruncate (splitDot value) <+: path ∨
            starTruncate (splitDot value) <+: path.tail)) ∧
    (∀ (path : List (List Char)) (value : List Char),
        path.length < (starTruncate (splitDot value)).length →
          fqnMatches path value = false) ∧
    (fqnMatches (['X'] :: ['a'] :: []) "a".toList = true) ∧
    (fqnMatches (['X'] :: ['a'] :: []) "X.a".toList = true) ∧
    (fqnMatches (['X'] :: ['a'] :: []) "*".toList = true) ∧
    (fqnMatches (['X'] :: ['a'] :: []) "X.*".toList = true) ∧
    (fqnMatches (['X'] :: ['a'] :: []) "b".toList = false) ∧
    (fqnMatches (['X'] :: ['a'] :: []) "X.b".toList = false) ∧
    (fqnMatches (['X'] :: ['a'] :: []) "X.a.b".toList = false) ∧
    (fqnMatches (['X'] :: ['a'] :: []) "Y.*".toList = false) := by
  refine ⟨?_, ?_, by decide, by decide, by decide, by decide,
    by decide, by decide, by decide, by decide⟩
  · intro path value
    simp [fqnMatches, is_selected_node]
  · intro path value h
    have h1 : ¬ (starTruncate (splitDot value) <+: path) := fun hp => by
      have := hp.length_le
      omega
    have h2 : ¬ (starTruncate (splitDot value) <+: path.tail) := fun hp => by
      have := hp.length_le
      have := List.length_tail path
      omega
    simp [fqnMatches, is_selected_node, h1, h2]

/-- Claim C2 witness: the length bound of the second conjunct applied at the
concrete pattern `X.a.b` against the path `X.a`. -/
theorem claim_C2_fqn_matching_witness :
    (['X'] :: ['a'] :: []).length < (starTruncate (splitDot "X.a.b".toList)).length ∧
    fqnMatches (['X'] :: ['a'] :: []) "X.a.b".toList = false :=
  ⟨by decide, claim_C2_fqn_matching.2.1 (['X'] :: ['a'] :: []) "X.a.b".toList (by decide)⟩

/-- Claim C6 counterexample: the body `a+` does not start with `@`, yet
parsing it alone yields `select_children = true` rather than both directional
flags false — the claim fails for bodies that themselves end in `+`, since
the parser greedily consumes a trailing `+` as a modifier. -/
theorem claim_C6_counterexample :
    (('a' :: '+' :: []).head? ≠ some '@') ∧
    parseSpec ('a' :: '+' :: []) =
      Except.ok ⟨false, true, false, SelectorType.fqn, ['a']⟩ :=
  ⟨by decide, by decide⟩

/-- Claim C6 (amended): for every nonempty spec body `b` that does not start
with `@` or `+` and does not end with `+`: `+b` parses with only
`select_parents` set, `b+` with only `select_children` set, `+b+` with both
set, `b` alone with neither, and `@b` with only `select_childrens_parents`
set. -/
theorem claim_C6_directional_modifiers (b : List Char)
    (hne : b ≠ [])
    (hat : b.head? ≠ some '@')
    (hplus : b.head? ≠ some '+')
    (hlast : b.getLast? ≠ some '+') :
    parseSpec b =
      Except.ok ⟨false, false, false, (parseBody b).1, (parseBody b).2⟩ ∧
    parseSpec ('+' :: b) =
      Except.ok ⟨true, false, false, (parseBody b).1, (parseBody b).2⟩ ∧
    parseSpec (b ++ ['+']) =
      Except.ok ⟨false, true, false, (parseBody b).1, (parseBody b).2⟩ ∧
    parseSpec ('+' :: (b ++ ['+'])) =
      Except.ok ⟨true, true, false, (parseBody b).1, (parseBody b).2⟩ ∧
    parseSpec ('@' :: b) =
      Except.ok ⟨false, false, true, (parseBody b).1, (parseBody b).2⟩ := by
  obtain ⟨x, xs, rfl⟩ : ∃ x xs, b = x :: xs := by
    cases b with
    | nil => exact absurd rfl hne
    | cons x xs => exact ⟨x, xs, rfl⟩
  have hxat : x ≠ '@' := fun h => hat (by simp [h])
  have hxplus : x ≠ '+' := fun h => hplus (by simp [h])
  have hg : (x :: (xs ++ ['+'])).getLast? = some '+' := List.getLast?_concat (x :: xs)
  have hd : (x :: (xs ++ ['+'])).dropLast = x :: xs := by
    have h2 : ((x :: xs) ++ ['+']).dropLast = x :: xs := List.dropLast_concat
    simpa using h2
  refine ⟨?_, ?_, ?_, ?_, ?_⟩ <;>
    simp [parseSpec, hxat, hxplus, hlast, hg, hd]

/-- Claim C6 witness: the amended directional-modifier behaviour applied at
the concrete body `a`, with each hypothesis discharged there. -/
theorem claim_C6_directional_modifiers_witness :
    (('a' :: []) ≠ []) ∧ (('a' :: []).head? ≠ some '@') ∧
    (('a' :: []).head? ≠ some '+') ∧ (('a' :: []).getLast? ≠ some '+') ∧
    parseSpec ('+' :: 'a' :: []) =
      Except.ok ⟨true, false, false, SelectorType.fqn, ['a']⟩ :=
  ⟨by decide, by decide, by decide, by decide,
    (claim_C6_directional_modifiers ('a' :: [])
      (by decide) (by decide) (by decide) (by decide)).2.1⟩

/-- Claim C7: body classification after stripping directional modifiers —
a `tag:` prefix gives selector kind `tag` with the remainder as value, a
`source:` prefix gives kind `source` with the remainder as value, and any
other body is an `fqn` whose value is the literal body with dots and `*`
preserved verbatim; classification is a total function, so no
unknown-selector failure exists. -/
theorem claim_C7_body_classification :
    (∀ v : List Char, parseBody ("tag:".toList ++ v) = (SelectorType.tag, v)) ∧
    (∀ v : List Char, parseBody ("source:".toList ++ v) = (SelectorType.source, v)) ∧
    (∀ b : List Char, ¬ ("tag:".toList <+: b) → ¬ ("source:".toList <+: b) →
        parseBody b = (SelectorType.fqn, b)) ∧
    parseBody "a.b.*".toList = (SelectorType.fqn, "a.b.*".toList) := by
  refine ⟨fun v => rfl, fun v => rfl, ?_, rfl⟩
  intro b htag hsrc
  have h1 : b.take 4 ≠ ('t' :: 'a' :: 'g' :: ':' :: []) := by
    intro h
    exact htag (List.prefix_iff_eq_take.mpr h.symm)
  have h2 : b.take 7 ≠ ('s' :: 'o' :: 'u' :: 'r' :: 'c' :: 'e' :: ':' :: []) := by
    intro h
    exact hsrc (List.prefix_iff_eq_take.mpr h.symm)
  simp [parseBody, h1, h2]

/-- Claim C7 witness: the fqn fall-through of the third conjunct applied at
the concrete body `z`. -/
theorem claim_C7_body_classification_witness :
    ¬ ("tag:".toList <+: ('z' :: [])) ∧ ¬ ("source:".toList <+: ('z' :: [])) ∧
    parseBody ('z' :: []) = (SelectorType.fqn, 'z' :: []) :=
  ⟨by decide, by decide,
    claim_C7_body_classification.2.2.1 ('z' :: []) (by decide) (by decide)⟩

/-- The criterion produced by parsing `@X.c`, used to instantiate the
childrens-parents closure claim. -/
def atXcCriterion : SelectionCriteria :=
  ⟨false, false, true, SelectorType.fqn, "X.c".toList⟩

/-- Claim C3: for every criterion with `select_childrens_parents` set, the
per-criterion result is `D ∪ ancestors(D)` where
`D = directMatches ∪ descendants(directMatches)`; and on the seven-node test
tree, selecting `@X.c` yields `{m.X.a, m.X.c, m.Y.f, m.X.g}`. -/
theorem claim_C3_childrens_parents (g : Graph) (m : Manifest)
    (c : SelectionCriteria) (h : c.select_childrens_parents = true) :
    criterionResult g m c =
      (directMatches m c ∪ descendants g (directMatches m c)) ∪
        ancestors g (directMatches m c ∪ descendants g (directMatches m c)) ∧
    select_nodes testGraph testManifest ["@X.c".toList] [] =
      Except.ok {nXa, nXc, nYf, nXg} :=
  ⟨by simp [criterionResult, h],
    congrArg Except.ok (Finset.Subset.antisymm (by decide) (by decide))⟩

/-- Claim C3 witness: the closure equation applied at the criterion parsed
from `@X.c` over the seven-node test tree. -/
theorem claim_C3_childrens_parents_witness :
    atXcCriterion.select_childrens_parents = true ∧
    (criterionResult testGraph testManifest atXcCriterion =
      (directMatches testManifest atXcCriterion ∪
          descendants testGraph (directMatches testManifest atXcCriterion)) ∪
        ancestors testGraph
          (directMatches testManifest atXcCriterion ∪
            descendants testGraph (directMatches testManifest atXcCriterion)) ∧
     select_nodes testGraph testManifest ["@X.c".toList] [] =
       Except.ok {nXa, nXc, nYf, nXg}) :=
  ⟨rfl, claim_C3_childrens_parents testGraph testManifest atXcCriterion rfl⟩

/-- Claim C4: exclusion is pure set difference — for all include and exclude
spec lists over any graph and catalog, `select(I, E)` is `select(I, [])`
minus `select(E, [])`, with parse errors propagating identically on both
sides; and on the seven-node test tree, selecting `*` excluding `tag:abc`
yields `{m.Y.d, m.X.e, m.Y.f, m.X.g}`. -/
theorem claim_C4_exclude_is_set_difference :
    (∀ (g : Graph) (m : Manifest) (incl excl : List (List Char)),
        select_nodes g m incl excl =
          (select_nodes g m incl []).bind (fun i =>
            (select_nodes g m excl []).map (fun e => i \ e))) ∧
    select_nodes testGraph testManifest ["*".toList] ["tag:abc".toList] =
      Except.ok {nYd, nXe, nYf, nXg} := by
  constructor
  · intro g m incl excl
    cases hI : parseAll incl with
    | error err => simp [select_nodes, hI, Except.bind]
    | ok ics =>
      cases hE : parseAll excl with
      | error err =>
        simp [select_nodes, hI, hE, parseAll, Except.bind, Except.map]
      | ok ecs =>
        simp [select_nodes, hI, hE, parseAll, Except.bind, Except.map,
          unionResults, Finset.sdiff_empty]
  · exact congrArg Except.ok (Finset.Subset.antisymm (by decide) (by decide))

/-- Claim C5: include specs are OR-unioned — a node lies in the union of
per-criterion results iff it satisfies at least one criterion, a
successfully parsed include list with no excludes resolves to exactly that
union, and the two concrete selections on the test tree hold. -/
theorem claim_C5_or_union :
    (∀ (g : Graph) (m : Manifest) (cs : List SelectionCriteria) (n : NodeId),
        n ∈ unionResults g m cs ↔ ∃ c ∈ cs, n ∈ criterionResult g m c) ∧
    (∀ (g : Graph) (m : Manifest) (incl : List (List Char))
        (cs : List SelectionCriteria), parseAll incl = Except.ok cs →
        select_nodes g m incl [] = Except.ok (unionResults g m cs)) ∧
    select_nodes testGraph testManifest ["tag:abc".toList, "a".toList] [] =
      Except.ok {nXa, nYb, nXc} ∧
    select_nodes testGraph testManifest ["tag:abc".toList, "d".toList] [] =
      Except.ok {nXa, nYb, nXc, nYd} := by
  refine ⟨?_, ?_, ?_, ?_⟩
  · intro g m cs n
    induction cs with
    | nil => simp [unionResults]
    | cons c cs ih =>
      simp only [unionResults, List.foldr_cons] at ih ⊢
      rw [Finset.mem_union, ih]
      simp
  · intro g m incl cs h
    simp [select_nodes, h, parseAll, unionResults, Finset.sdiff_empty]
  · exact congrArg Except.ok (Finset.Subset.antisymm (by decide) (by decide))
  · exact congrArg Except.ok (Finset.Subset.antisymm (by decide) (by decide))

/-- Claim C5 witness: the include-resolution equation applied to the
concrete include list `[tag:abc]` over the seven-node test tree. -/
theorem claim_C5_or_union_witness :
    parseAll ["tag:abc".toList] =
      Except.ok [⟨false, false, false, SelectorType.tag, "abc".toList⟩] ∧
    select_nodes testGraph testManifest ["tag:abc".toList] [] =
      Except.ok (unionResults testGraph testManifest
        [⟨false, false, false, SelectorType.tag, "abc".toList⟩]) :=
  ⟨by decide,
    claim_C5_or_union.2.1 testGraph testManifest ["tag:abc".toList]
      [⟨false, false, false, SelectorType.tag, "abc".toList⟩] (by decide)⟩

/-- Claim C9: `get_package_names` returns the distinct set of the first
namespace-path segment across all graph nodes, and on the seven-node test
graph (identifiers `m.X.a` … `m.X.g`) it returns exactly `{X, Y}`. -/
theorem claim_C9_package_names :
    (∀ (g : Graph) (p : List Char),
        p ∈ get_package_names g ↔ ∃ n ∈ g.nodes, (nodePath n).headD [] = p) ∧
    get_package_names testGraph = {"X".toList, "Y".toList} := by
  constructor
  · intro g p
    simp [get_package_names, Finset.mem_image]
  · exact Finset.Subset.antisymm (by decide) (by decide)

end DbtSel

namespace DbtYaml

/-- Claim C10: the contextual-error formatting is total with a clamped
window — the numbered excerpt is the indexed map of the line slice
`lines[no_start:no_end]` with each displayed number being the 1-based index
of its line; for the window `[max(line-3,0), line+4)` the excerpt has exactly
`min(line+4, number of lines) - max(line-3, 0)` lines, so an error on one of
the first three or last three lines yields a shorter excerpt instead of an
out-of-range failure; and `contextualized_yaml_error` formats with exactly
that clamped window. -/
theorem claim_C10_contextual_window_total :
    (∀ (s : List Char) (a b : Nat),
        numbered_lines s a b =
          (((splitNl s).drop a).take (b - a)).mapIdx
            (fun j line => line_no (a + j + 1) line)) ∧
    (∀ (s : List Char) (line : Nat),
        (numbered_lines s (max (line - 3) 0) (line + 4)).length =
          min (line + 4) (splitNl s).length - max (line - 3) 0) ∧
    (∀ (s : List Char) (e : YamlError) (m : Mark), e.problem_mark = some m →
        contextualized_yaml_error s e =
          YAML_ERROR_MESSAGE (Nat.repr (m.line + 1)).toList
            (prefix_with_line_numbers s (max (m.line - 3) 0) (m.line + 4))
            e.msg) := by
  refine ⟨?_, ?_, ?_⟩
  · intro s a b
    unfold numbered_lines
    exact zip_range'_map (fun i line => line_no (i + 1) line) _ a (b - a)
      (List.length_take_le _ _)
  · intro s line
    simp only [numbered_lines, List.length_map, List.length_zip,
      List.length_range', List.length_take, List.length_drop]
    omega
  · intro s e m h
    simp [contextualized_yaml_error, h]

/-- Claim C10 witness: the clamped-window formatting equation applied to a
concrete three-line text with the error mark on line index 2. -/
theorem claim_C10_contextual_window_total_witness :
    (YamlError.mk (some ⟨2⟩) "boom".toList).problem_mark = some (Mark.mk 2) ∧
    contextualized_yaml_error "l1\nl2\nl3".toList ⟨some ⟨2⟩, "boom".toList⟩ =
      YAML_ERROR_MESSAGE (Nat.repr (2 + 1)).toList
        (prefix_with_line_numbers "l1\nl2\nl3".toList (max (2 - 3) 0) (2 + 4))
        "boom".toList :=
  ⟨rfl,
    claim_C10_contextual_window_total.2.2 "l1\nl2\nl3".toList
      ⟨some ⟨2⟩, "boom".toList⟩ ⟨2⟩ rfl⟩

/-- Claim C8: whenever the YAML library fails with an error carrying a
position mark, `load_yaml_text` raises a `ValidationException` (it never
returns a value) whose message contains the 1-based offending line number,
the line-numbered excerpt for the window of 3 lines before and 3 lines after
the offending line, and the raw library error text. -/
theorem claim_C8_yaml_error_reported {α : Type}
    (safe_load : List Char → Except YamlError α) (contents : List Char)
    (e : YamlError) (m : Mark)
    (hload : safe_load contents = Except.error e)
    (hmark : e.problem_mark = some m) :
    load_yaml_text safe_load contents =
      Except.error (DbtError.validationException
        (contextualized_yaml_error contents e)) ∧
    (Nat.repr (m.line + 1)).toList <:+: contextualized_yaml_error contents e ∧
    prefix_with_line_numbers contents (max (m.line - 3) 0) (m.line + 4) <:+:
      contextualized_yaml_error contents e ∧
    e.msg <:+ contextualized_yaml_error contents e := by
  have hctx : contextualized_yaml_error contents e =
      YAML_ERROR_MESSAGE (Nat.repr (m.line + 1)).toList
        (prefix_with_line_numbers contents (max (m.line - 3) 0) (m.line + 4))
        e.msg := by
    simp [contextualized_yaml_error, hmark]
  refine ⟨?_, ?_, ?_, ?_⟩
  · simp [load_yaml_text, hload, hmark]
  · rw [hctx]
    exact ⟨"Syntax error near line ".toList,
      ('\n' :: []) ++ "------------------------------".toList ++ ('\n' :: []) ++
        prefix_with_line_numbers contents (max (m.line - 3) 0) (m.line + 4) ++
        ('\n' :: '\n' :: []) ++ "Raw Error:".toList ++ ('\n' :: []) ++
        "------------------------------".toList ++ ('\n' :: []) ++ e.msg,
      by simp [YAML_ERROR_MESSAGE, List.append_assoc]⟩
  · rw [hctx]
    exact ⟨"Syntax error near line ".toList ++ (Nat.repr (m.line + 1)).toList ++
        ('\n' :: []) ++ "------------------------------".toList ++ ('\n' :: []),
      ('\n' :: '\n' :: []) ++ "Raw Error:".toList ++ ('\n' :: []) ++
        "------------------------------".toList ++ ('\n' :: []) ++ e.msg,
      by simp [YAML_ERROR_MESSAGE, List.append_assoc]⟩
  · rw [hctx]
    exact ⟨"Syntax error near line ".toList ++ (Nat.repr (m.line + 1)).toList ++
        ('\n' :: []) ++ "------------------------------".toList ++ ('\n' :: []) ++
        prefix_with_line_numbers contents (max (m.line - 3) 0) (m.line + 4) ++
        ('\n' :: '\n' :: []) ++ "Raw Error:".toList ++ ('\n' :: []) ++
        "------------------------------".toList ++ ('\n' :: []),
      by simp [YAML_ERROR_MESSAGE, List.append_assoc]⟩

/-- A constant failing YAML loader used to witness the error-reporting
claim: it always fails with a marked error on line index 0 and raw text
`err`. -/
def constMarkedLoad : List Char → Except YamlError Nat :=
  fun _ => Except.error ⟨some ⟨0⟩, "err".toList⟩

/-- Claim C8 witness: the error-reporting theorem applied to the constant
failing loader on a concrete one-line document. -/
theorem claim_C8_yaml_error_reported_witness :
    constMarkedLoad "a: 1".toList = Except.error ⟨some ⟨0⟩, "err".toList⟩ ∧
    (YamlError.mk (some ⟨0⟩) "err".toList).problem_mark = some (Mark.mk 0) ∧
    (load_yaml_text constMarkedLoad "a: 1".toList =
      Except.error (DbtError.validationException
        (contextualized_yaml_error "a: 1".toList ⟨some ⟨0⟩, "err".toList⟩)) ∧
     (Nat.repr (0 + 1)).toList <:+:
       contextualized_yaml_error "a: 1".toList ⟨some ⟨0⟩, "err".toList⟩ ∧
     prefix_with_line_numbers "a: 1".toList (max (0 - 3) 0) (0 + 4) <:+:
       contextualized_yaml_error "a: 1".toList ⟨some ⟨0⟩, "err".toList⟩ ∧
     "err".toList <:+
       contextualized_yaml_error "a: 1".toList ⟨some ⟨0⟩, "err".toList⟩) :=
  ⟨rfl, rfl,
    claim_C8_yaml_error_reported constMarkedLoad "a: 1".toList
      ⟨some ⟨0⟩, "err".toList⟩ ⟨0⟩ rfl rfl⟩

end DbtYaml
